import Mathlib

/-!
Verification of the lellostore backend core against its specification.

The Rust sources are shallowly embedded: strings are lists of characters,
byte buffers are lists of naturals, machine integers are Nat/Int with
explicit range checks where the Rust parse functions enforce them, the
SQLite catalog is a list of rows, and the managed filesystem tree
(apks/, icons/) is a pair of association lists plus the set of existing
per-package directories.  External collaborators (the zip library, the
bundletool converter, the aapt2 inspection tool, the SHA-256 routine and
the transaction outcome) are oracles bundled in an `Env` record, exactly
as the upload pipeline consumes them through trait-object-like calls.
-/

deriving instance DecidableEq for Except

namespace Lellostore

/-! ## Character and numeral primitives (models of Rust str/parse methods) -/

/-- Single quote character (ASCII 39), used by the badging parser. -/
def sq : Char := Char.ofNat 39

/-- Double quote character (ASCII 34), used by the badging parser. -/
def dq : Char := Char.ofNat 34

/-- NUL character (ASCII 0). -/
def nulChar : Char := Char.ofNat 0

/-- Model of Rust char::is_whitespace restricted to the ASCII whitespace
relevant to the Range headers under test. -/
def isWS (c : Char) : Bool := c.isWhitespace

/-- Model of Rust str::trim over a character list: drop whitespace from
both ends. -/
def trimChars (l : List Char) : List Char :=
  ((l.dropWhile isWS).reverse.dropWhile isWS).reverse

/-- Decimal digit character for a value below 10. -/
def digitCh (d : Nat) : Char := Char.ofNat (48 + d)

/-- Numeric value of an ASCII decimal digit character, none otherwise. -/
def digitVal (c : Char) : Option Nat :=
  if 48 ≤ c.toNat ∧ c.toNat ≤ 57 then some (c.toNat - 48) else none

/-- Left-to-right accumulation of decimal digits; fails at the first
non-digit character.  Mirrors the digit loop of Rust integer FromStr. -/
def goDigits : List Char → Nat → Option Nat
  | [], acc => some acc
  | c :: rest, acc =>
    match digitVal c with
    | some d => goDigits rest (acc * 10 + d)
    | none => none

/-- Strip one optional leading plus sign, as Rust integer FromStr does. -/
def headPlus (l : List Char) : List Char :=
  match l with
  | c :: rest => if c = '+' then rest else l
  | [] => l

/-- Model of str::parse::<u64>(): optional leading plus, one or more
ASCII digits, value within the u64 range. -/
def parseU64 (l : List Char) : Option Nat :=
  let l2 := headPlus l
  if l2.isEmpty then none
  else
    match goDigits l2 0 with
    | none => none
    | some n => if n < 2 ^ 64 then some n else none

/-- Model of a signed integer parse bounded by `bound = 2^63` (i64) or
`bound = 2^31` (i32): optional sign, digits, range check. -/
def parseIntB (bound : Nat) (l : List Char) : Option Int :=
  match l with
  | '-' :: rest =>
    if rest.isEmpty then none
    else
      match goDigits rest 0 with
      | none => none
      | some n => if n ≤ bound then some (-(n : Int)) else none
  | _ =>
    let l2 := headPlus l
    if l2.isEmpty then none
    else
      match goDigits l2 0 with
      | none => none
      | some n => if n < bound then some (n : Int) else none

/-- Model of str::parse::<i64>(). -/
def parseI64 (l : List Char) : Option Int := parseIntB (2 ^ 63) l

/-- Model of str::parse::<i32>(). -/
def parseI32 (l : List Char) : Option Int := parseIntB (2 ^ 31) l

/-- Fuel-driven most-significant-first decimal rendering of a positive
natural; the fuel argument makes the recursion structural. -/
def natCharsAux : Nat → Nat → List Char
  | 0, _ => []
  | fuel + 1, n => if n = 0 then [] else natCharsAux fuel (n / 10) ++ [digitCh (n % 10)]

/-- Decimal rendering of a natural number, as Rust u64 Display. -/
def natChars (n : Nat) : List Char :=
  if n = 0 then ['0'] else natCharsAux n n

/-- Decimal rendering of an integer, as Rust i64 Display. -/
def intChars (i : Int) : List Char :=
  if i < 0 then '-' :: natChars i.natAbs else natChars i.toNat

/-! ## Range header parsing (src/backend/src/api/file_response.rs) -/

/-- Error type of the Range parser. -/
inductive RangeError where
  | InvalidFormat
  | NotSatisfiable
deriving DecidableEq

/-- The literal characters of the mandatory "bytes=" unit. -/
def bytesEq : List Char := ['b', 'y', 't', 'e', 's', '=']

/-- Model of header.strip of the "bytes=" unit. -/
def stripBytes (l : List Char) : Option (List Char) :=
  if bytesEq.isPrefixOf l then some (l.drop 6) else none

/-- Model of Rust str::split('-'): every dash separates, empty pieces are
kept, the empty input yields one empty piece. -/
def splitDash : List Char → List (List Char)
  | [] => [[]]
  | c :: rest =>
    if c = '-' then [] :: splitDash rest
    else (c :: (splitDash rest).headD []) :: (splitDash rest).tail

/-- Core of parse_range_header once the spec has been split in exactly two
pieces: trims both, handles the suffix form, the open-ended form and the
two-bound form, with the clamping and satisfiability checks of the source
in source order. -/
def parseParts (p0 p1 : List Char) (file_size : Nat) : Except RangeError (Nat × Nat) :=
  let start_str := trimChars p0
  let end_str := trimChars p1
  if start_str.isEmpty then
    match parseU64 end_str with
    | none => .error .InvalidFormat
    | some suffix_len =>
      if suffix_len = 0 then .error .NotSatisfiable
      else .ok (file_size - suffix_len, file_size - 1)
  else
    match parseU64 start_str with
    | none => .error .InvalidFormat
    | some start =>
      if file_size ≤ start then .error .NotSatisfiable
      else
        let endOpt : Option Nat :=
          if end_str.isEmpty then some (file_size - 1)
          else
            match parseU64 end_str with
            | none => none
            | some e => some (min e (file_size - 1))
        match endOpt with
        | none => .error .InvalidFormat
        | some en => if en < start then .error .NotSatisfiable else .ok (start, en)

/-- Split the spec after "bytes=" at the dashes and require exactly two
pieces, as the parts.len() check of the source. -/
def parseSpec (range_spec : List Char) (file_size : Nat) : Except RangeError (Nat × Nat) :=
  match splitDash range_spec with
  | [p0, p1] => parseParts p0 p1 file_size
  | _ => .error .InvalidFormat

/-- Embedding of parse_range_header (file_response.rs lines 28-75). -/
def parse_range_header (header : List Char) (file_size : Nat) : Except RangeError (Nat × Nat) :=
  match stripBytes header with
  | none => .error .InvalidFormat
  | some range_spec => parseSpec range_spec file_size

/-- Observable outcome of serve_file: a 200 with the whole body, a 206
with Content-Range bytes start-fin/size and the sliced body, or a 416
with an empty body and Content-Range bytes star-slash-size. -/
inductive ServeOutcome where
  | full (body : List Nat)
  | ranged (start fin size : Nat) (body : List Nat)
  | notSatisfiable (size : Nat)
deriving DecidableEq

/-- Embedding of serve_file (file_response.rs lines 172-217) composed with
FileResponseBuilder.build: the body of a 206 is the file sought to the
range start and read for end - start + 1 bytes. -/
def serve_file : List Nat → Option (List Char) → ServeOutcome
  | content, none => .full content
  | content, some h =>
    match parse_range_header h content.length with
    | .ok (s, e) => .ranged s e content.length ((content.drop s).take (e - s + 1))
    | .error .NotSatisfiable => .notSatisfiable content.length
    | .error .InvalidFormat => .full content

/-- Header "bytes=a-b" with decimal numerals. -/
def rangeHdr (a b : Nat) : List Char := bytesEq ++ natChars a ++ '-' :: natChars b

/-- Header "bytes=a-" with a decimal numeral. -/
def openHdr (a : Nat) : List Char := bytesEq ++ natChars a ++ ['-']

/-- Header "bytes=-n" with a decimal numeral. -/
def suffixHdr (n : Nat) : List Char := bytesEq ++ '-' :: natChars n

/-! ## Package name validation and storage errors (services/storage.rs) -/

/-- Error type of the storage service. -/
inductive StorageError where
  | Io
  | NotFound (msg : String)
  | InvalidPackageName (msg : String)
deriving DecidableEq

/-- True when the character list contains two consecutive dots, the model
of Rust str::contains applied to the two-character pattern. -/
def hasDoubleDot : List Char → Bool
  | c1 :: c2 :: rest => (c1 = '.' ∧ c2 = '.') ∨ hasDoubleDot (c2 :: rest)
  | _ => false

/-- UTF-8 byte width of one character. -/
def charBytes (c : Char) : Nat :=
  if c.toNat < 128 then 1
  else if c.toNat < 2048 then 2
  else if c.toNat < 65536 then 3
  else 4

/-- UTF-8 byte length of a character list, the model of Rust str::len. -/
def utf8Len (l : List Char) : Nat := (l.map charBytes).sum

/-- Embedding of validate_package_name (storage.rs lines 21-51), checks in
source order: traversal characters, NUL, byte length, mandatory dot. -/
def validate_package_name (name : List Char) : Except StorageError Unit :=
  if name.contains '/' ∨ name.contains '\\' ∨ hasDoubleDot name then
    .error (.InvalidPackageName "Package name contains path separators or traversal sequences")
  else if name.contains nulChar then
    .error (.InvalidPackageName "Package name contains null bytes")
  else if name.isEmpty ∨ 255 < utf8Len name then
    .error (.InvalidPackageName "Package name must be 1-255 characters")
  else if ¬ name.contains '.' then
    .error (.InvalidPackageName "Package name must contain at least one dot (e.g., com.example)")
  else .ok ()

/-! ## Catalog rows and the managed store state -/

/-- Row of the apps table. -/
structure AppRow where
  package_name : String
  name : String
  description : Option String
  icon_path : Option String
  created_at : Nat
  updated_at : Nat
deriving DecidableEq

/-- Row of the app_versions table. -/
structure VersionRow where
  package_name : String
  version_code : Int
  version_name : String
  apk_path : String
  size : Int
  sha256 : String
  min_sdk : Int
  uploaded_at : Nat
deriving DecidableEq

/-- Combined catalog-database plus managed-filesystem state: table rows,
the files under apks/ keyed by (package, version_code), the set of
existing per-package directories under apks/, and the files under
icons/ keyed by package. -/
structure Store where
  apps : List AppRow
  versions : List VersionRow
  apkFiles : List ((String × Int) × List Nat)
  apkDirs : List String
  icons : List (String × List Nat)
deriving DecidableEq

/-- Embedding of db::version_exists: a row with the pair exists. -/
def version_exists (s : Store) (pn : String) (vc : Int) : Bool :=
  s.versions.any (fun v => v.package_name = pn ∧ v.version_code = vc)

/-- Embedding of db::get_app. -/
def get_app (s : Store) (pn : String) : Option AppRow :=
  s.apps.find? (fun a => a.package_name = pn)

/-- Insertion sort step for descending version_code order. -/
def insertByCodeDesc (v : VersionRow) : List VersionRow → List VersionRow
  | [] => [v]
  | w :: ws => if w.version_code ≤ v.version_code then v :: w :: ws else w :: insertByCodeDesc v ws

/-- Sort rows by version_code descending (the ORDER BY of get_app_versions). -/
def sortByCodeDesc : List VersionRow → List VersionRow
  | [] => []
  | v :: vs => insertByCodeDesc v (sortByCodeDesc vs)

/-- Embedding of db::get_app_versions. -/
def get_app_versions (s : Store) (pn : String) : List VersionRow :=
  sortByCodeDesc (s.versions.filter (fun v => v.package_name = pn))

/-- Embedding of db::insert_app: appends the new row with both timestamps
set to the current time. -/
def insert_app (now : Nat) (apps : List AppRow) (pn name : String)
    (description icon_path : Option String) : List AppRow :=
  apps ++ [{ package_name := pn, name := name, description := description,
             icon_path := icon_path, created_at := now, updated_at := now }]

/-- One column setter of the dynamically built UPDATE statement. -/
def applyUpdates (fs : List (AppRow → AppRow)) (r : AppRow) : AppRow :=
  fs.foldl (fun a f => f a) r

/-- Setter for the name column. -/
def setName (n : String) (r : AppRow) : AppRow := { r with name := n }

/-- Setter for the description column. -/
def setDescription (d : String) (r : AppRow) : AppRow := { r with description := some d }

/-- Setter for the icon_path column. -/
def setIconPath (i : String) (r : AppRow) : AppRow := { r with icon_path := some i }

/-- Setter for the updated_at column. -/
def setUpdatedAt (now : Nat) (r : AppRow) : AppRow := { r with updated_at := now }

/-- Embedding of db::update_app (db/mod.rs lines 103-150): collect one
setter per supplied field, return unchanged when none is supplied,
otherwise also set updated_at and apply to the matching row. -/
def update_app (now : Nat) (apps : List AppRow) (pn : String)
    (name description icon_path : Option String) : List AppRow :=
  let updates : List (AppRow → AppRow) :=
    (match name with
     | some n => [setName n]
     | none => []) ++
    (match description with
     | some d => [setDescription d]
     | none => []) ++
    (match icon_path with
     | some i => [setIconPath i]
     | none => [])
  if updates.isEmpty then apps
  else
    let updates2 := updates ++ [setUpdatedAt now]
    apps.map (fun r => if r.package_name = pn then applyUpdates updates2 r else r)

/-- Embedding of db::insert_app_version. -/
def insert_app_version (now : Nat) (vers : List VersionRow) (pn : String) (vc : Int)
    (vname apk_path : String) (size : Int) (sha : String) (min_sdk : Int) : List VersionRow :=
  vers ++ [{ package_name := pn, version_code := vc, version_name := vname,
             apk_path := apk_path, size := size, sha256 := sha, min_sdk := min_sdk,
             uploaded_at := now }]

/-- Embedding of db::delete_app_version. -/
def delete_app_version (vers : List VersionRow) (pn : String) (vc : Int) : List VersionRow :=
  vers.filter (fun v => ¬ (v.package_name = pn ∧ v.version_code = vc))

/-- Embedding of db::delete_app on the whole state: the app row is removed
and the versions cascade away. -/
def db_delete_app (s : Store) (pn : String) : Store :=
  { s with apps := s.apps.filter (fun a => ¬ a.package_name = pn),
           versions := s.versions.filter (fun v => ¬ v.package_name = pn) }

/-! ## Artifact store operations (services/storage.rs) -/

/-- Embedding of StorageService::save_apk: validate, create the package
directory, write (or overwrite) the file, return the relative key. -/
def save_apk (s : Store) (pn : String) (vc : Int) (data : List Nat) :
    Except StorageError (String × Store) :=
  match validate_package_name pn.toList with
  | .error e => .error e
  | .ok _ =>
    .ok ("apks/" ++ pn ++ "/" ++ toString vc ++ ".apk",
      { s with apkDirs := if s.apkDirs.contains pn then s.apkDirs else pn :: s.apkDirs,
               apkFiles := ((pn, vc), data) :: s.apkFiles.filter (fun f => ¬ f.1 = (pn, vc)) })

/-- Embedding of StorageService::save_icon: validate, write (or overwrite)
icons slash package dot png, return the relative key. -/
def save_icon (s : Store) (pn : String) (data : List Nat) :
    Except StorageError (String × Store) :=
  match validate_package_name pn.toList with
  | .error e => .error e
  | .ok _ =>
    .ok ("icons/" ++ pn ++ ".png",
      { s with icons := (pn, data) :: s.icons.filter (fun f => ¬ f.1 = pn) })

/-- Embedding of StorageService::delete_apk: validate, remove the file if
present, and remove the per-package directory when it became empty. -/
def delete_apk (s : Store) (pn : String) (vc : Int) : Except StorageError Store :=
  match validate_package_name pn.toList with
  | .error e => .error e
  | .ok _ =>
    let files1 := s.apkFiles.filter (fun f => ¬ f.1 = (pn, vc))
    let dirs1 :=
      if s.apkDirs.contains pn ∧ files1.all (fun f => ¬ f.1.1 = pn) then
        s.apkDirs.filter (fun d => ¬ d = pn)
      else s.apkDirs
    .ok { s with apkFiles := files1, apkDirs := dirs1 }

/-- Embedding of StorageService::delete_icon. -/
def delete_icon (s : Store) (pn : String) : Except StorageError Store :=
  match validate_package_name pn.toList with
  | .error e => .error e
  | .ok _ => .ok { s with icons := s.icons.filter (fun f => ¬ f.1 = pn) }

/-- An APK file for the pair is present under apks/. -/
def hasApkFile (s : Store) (pn : String) (vc : Int) : Bool :=
  s.apkFiles.any (fun f => f.1 = (pn, vc))

/-- An icon file for the package is present under icons/. -/
def hasIcon (s : Store) (pn : String) : Bool :=
  s.icons.any (fun f => f.1 = pn)

/-! ## Upload pipeline (services/upload.rs) -/

/-- Errors of the AAB converter. -/
inductive AabError where
  | InvalidBundle
  | ConversionFailed (msg : String)
  | Io
deriving DecidableEq

/-- Errors of the APK inspector. -/
inductive ApkError where
  | Aapt2NotFound
  | Aapt2Failed (msg : String)
  | ParseError (msg : String)
  | InvalidApk (msg : String)
  | IconError (msg : String)
  | Io
deriving DecidableEq

/-- Errors of the upload pipeline. -/
inductive UploadError where
  | FileTooLarge (max actual : Nat)
  | InvalidFileType
  | VersionExists (package_name : String) (version_code : Int)
  | AabNotSupported (msg : String)
  | ApkErr (e : ApkError)
  | AabErr (e : AabError)
  | StorageErr (e : StorageError)
  | DatabaseErr
  | Io
deriving DecidableEq

/-- Metadata record produced by the inspector. -/
structure ApkMetadata where
  package_name : String
  version_code : Int
  version_name : String
  min_sdk : Int
  app_name : String
  icon_data : Option (List Nat)
deriving DecidableEq

/-- Result record of a successful upload. -/
structure UploadResult where
  package_name : String
  version_code : Int
  version_name : String
  app_name : String
  is_new_app : Bool
deriving DecidableEq

/-- Oracles for the external collaborators of the pipeline: the zip
library (entry names of an archive, none when it fails to open), the
optional bundletool converter, the aapt2-backed inspector applied to the
temporary APK bytes, the SHA-256 routine, whether the catalog transaction
commits, and the clock. -/
structure Env where
  zipEntries : List Nat → Option (List String)
  converter : Option (List Nat → Except AabError (List Nat))
  inspect : List Nat → Except ApkError ApkMetadata
  sha256hex : List Nat → String
  txOk : Bool
  now : Nat

/-- File classification of the upload pipeline. -/
inductive FileType where
  | Apk
  | Aab
  | Unknown
deriving DecidableEq

/-- The lowercase ".apk" suffix. -/
def dotApk : List Char := ['.', 'a', 'p', 'k']

/-- The lowercase ".aab" suffix. -/
def dotAab : List Char := ['.', 'a', 'a', 'b']

/-- Embedding of detect_file_type (upload.rs lines 299-335): magic-byte
gate, zip open, marker entries, then the case-insensitive filename
suffix fallback. -/
def detect_file_type (zipOpen : List Nat → Option (List String))
    (data : List Nat) (filename : List Char) : FileType :=
  if data.length < 4 ∨ ¬ data.take 2 = [80, 75] then .Unknown
  else
    match zipOpen data with
    | none => .Unknown
    | some names =>
      if names.contains "BundleConfig.pb" then .Aab
      else if names.contains "AndroidManifest.xml" then .Apk
      else
        let lower := filename.map Char.toLower
        if dotApk.isSuffixOf lower then .Apk
        else if dotAab.isSuffixOf lower then .Aab
        else .Unknown

/-- Steps 2-4 of process_upload: classify the upload and produce the APK
bytes, converting through bundletool for an AAB. -/
def materializeApk (env : Env) (data : List Nat) (filename : List Char) :
    Except UploadError (List Nat) :=
  match detect_file_type env.zipEntries data filename with
  | .Apk => .ok data
  | .Aab =>
    match env.converter with
    | none => .error (.AabNotSupported
        "bundletool not configured. Set BUNDLETOOL_PATH and ensure Java is available.")
    | some conv =>
      match conv data with
      | .ok apk => .ok apk
      | .error e => .error (.AabErr e)
  | .Unknown => .error .InvalidFileType

/-- Step 11 of process_upload: best-effort icon save, demoted to a warning
on failure. -/
def saveIconPhase (s : Store) (m : ApkMetadata) : Option String × Store :=
  match m.icon_data with
  | none => (none, s)
  | some idata =>
    match save_icon s m.package_name idata with
    | .ok (k, s2) => (some k, s2)
    | .error _ => (none, s)

/-- Modelled from the spec: the transactional writes insert_app_tx,
update_app_tx and insert_app_version_tx of UploadService::update_database
are declared in src but their bodies are not under src/; per section 4.5
step 10c they perform the same row writes as the pool-backed variants
inside one atomic unit, which is how they are modelled here. -/
def run_transaction (env : Env) (s : Store) (m : ApkMetadata) (apk_key : String)
    (size : Int) (sha app_name : String) (override_name override_description : Option String)
    (icon_key : Option String) (is_new : Bool) : Store :=
  let apps1 :=
    if is_new then insert_app env.now s.apps m.package_name app_name override_description icon_key
    else update_app env.now s.apps m.package_name override_name override_description icon_key
  { s with apps := apps1,
           versions := insert_app_version env.now s.versions m.package_name m.version_code
             m.version_name apk_key size sha m.min_sdk }

/-- Embedding of UploadService::cleanup_on_failure (upload.rs lines
276-288): delete the freshly saved APK, and the icon only for a new
package; errors of the deletions are ignored. -/
def cleanup_on_failure (s : Store) (pn : String) (vc : Int) (is_new : Bool) : Store :=
  let s1 := match delete_apk s pn vc with
    | .ok s2 => s2
    | .error _ => s
  if is_new then
    match delete_icon s1 pn with
    | .ok s2 => s2
    | .error _ => s1
  else s1

/-- Embedding of UploadService::process_upload (upload.rs lines 82-212):
size gate, type detection and materialization, inspection, uniqueness
check, hashing, novelty check, APK save, best-effort icon save, then the
transactional catalog write with file cleanup on transaction failure. -/
def process_upload (env : Env) (maxSize : Nat) (s : Store) (filename : List Char)
    (data : List Nat) (override_name override_description : Option String) :
    Except UploadError UploadResult × Store :=
  if maxSize < data.length then (.error (.FileTooLarge maxSize data.length), s)
  else
    match materializeApk env data filename with
    | .error e => (.error e, s)
    | .ok apk_data =>
      match env.inspect apk_data with
      | .error e => (.error (.ApkErr e), s)
      | .ok m =>
        if version_exists s m.package_name m.version_code then
          (.error (.VersionExists m.package_name m.version_code), s)
        else
          let sha := env.sha256hex apk_data
          let is_new := (get_app s m.package_name).isNone
          match save_apk s m.package_name m.version_code apk_data with
          | .error e => (.error (.StorageErr e), s)
          | .ok (apk_key, s1) =>
            let iconRes := saveIconPhase s1 m
            let app_name := override_name.getD m.app_name
            if env.txOk then
              (.ok { package_name := m.package_name, version_code := m.version_code,
                     version_name := m.version_name, app_name := app_name,
                     is_new_app := is_new },
               run_transaction env iconRes.2 m apk_key (apk_data.length : Int) sha app_name
                 override_name override_description iconRes.1 is_new)
            else
              (.error .DatabaseErr,
               cleanup_on_failure iconRes.2 m.package_name m.version_code is_new)

/-! ## Admin delete-version handler (api/handlers.rs lines 403-442) -/

/-- Error surface of the HTTP handlers that matters here. -/
inductive AppError where
  | NotFound
  | Internal
  | Database
deriving DecidableEq

/-- Embedding of the delete_version handler: find the version among the
rows of the package, remember whether it was the last one, delete the APK
file, delete the row, and for the last version also delete the icon and
the app row (cascading the versions). -/
def delete_version (s : Store) (pn : String) (vc : Int) : Except AppError Store :=
  let versions := get_app_versions s pn
  if versions.any (fun v => v.version_code = vc) then
    let is_last := versions.length = 1
    match delete_apk s pn vc with
    | .error _ => .error .Internal
    | .ok s1 =>
      let s2 := { s1 with versions := delete_app_version s1.versions pn vc }
      if is_last then
        match delete_icon s2 pn with
        | .error _ => .error .Internal
        | .ok s3 => .ok (db_delete_app s3 pn)
      else .ok s2
  else .error .NotFound

/-! ## Badging output parser (services/apk.rs lines 195-342) -/

/-- Return the suffix right after the first occurrence of key, the model
of str::find composed with slicing. -/
def dropAfterKey (key : List Char) : List Char → Option (List Char)
  | [] => if key.isPrefixOf ([] : List Char) then some [] else none
  | c :: t =>
    if key.isPrefixOf (c :: t) then some ((c :: t).drop key.length)
    else dropAfterKey key t

/-- Characters before the first occurrence of the closing quote, none when
the quote never closes. -/
def upToChar : List Char → Char → Option (List Char)
  | [], _ => none
  | c :: t, q => if c = q then some [] else (upToChar t q).map (fun r => c :: r)

/-- Embedding of extract_quoted_value: value after the key, between a pair
of single or double quotes. -/
def extract_quoted_value (line key : List Char) : Option (List Char) :=
  match dropAfterKey key line with
  | none => none
  | some rest =>
    match rest with
    | [] => none
    | q :: t => if q = sq ∨ q = dq then upToChar t q else none

/-- Suffix after the first colon of the line. -/
def afterColon : List Char → Option (List Char)
  | [] => none
  | c :: t => if c = ':' then some t else afterColon t

/-- Index of the first colon of the line. -/
def colonIdx : List Char → Option Nat
  | [] => none
  | c :: t => if c = ':' then some 0 else (colonIdx t).map (fun i => i + 1)

/-- Embedding of extract_quoted_value_colon. -/
def extract_quoted_value_colon (line : List Char) : Option (List Char) :=
  match afterColon line with
  | none => none
  | some rest =>
    match rest with
    | [] => none
    | q :: t => if q = sq ∨ q = dq then upToChar t q else none

/-- The "package:" line marker. -/
def pkgKey : List Char := "package:".toList

/-- The "name=" key. -/
def nameKey : List Char := "name=".toList

/-- The "versionCode=" key. -/
def vcKey : List Char := "versionCode=".toList

/-- The "versionName=" key. -/
def vnKey : List Char := "versionName=".toList

/-- The "sdkVersion:" line marker. -/
def sdkKey : List Char := "sdkVersion:".toList

/-- The "application-label:" line marker. -/
def labelKey : List Char := "application-label:".toList

/-- The "application-icon-" line marker. -/
def iconKey : List Char := "application-icon-".toList

/-- Embedding of parse_icon_line: density between the marker and the first
colon, path between quotes after that colon. -/
def parse_icon_line (line : List Char) : Option (Int × List Char) :=
  if iconKey.isPrefixOf line then
    match colonIdx line with
    | none => none
    | some i =>
      let density_str := (line.drop iconKey.length).take (i - iconKey.length)
      match parseI32 density_str with
      | none => none
      | some d =>
        match extract_quoted_value_colon line with
        | none => none
        | some path => some (d, path)
  else none

/-- Accumulated scan state of the line loop of parse_aapt2_output. -/
structure BadgingScan where
  package_name : Option (List Char)
  version_code : Option Int
  version_name : Option (List Char)
  min_sdk : Option Int
  app_name : Option (List Char)
  icon_paths : List (Int × List Char)
deriving DecidableEq

/-- Empty scan state. -/
def initScan : BadgingScan :=
  { package_name := none, version_code := none, version_name := none,
    min_sdk := none, app_name := none, icon_paths := [] }

/-- One iteration of the line loop: the four independent line checks of
the source, in source order; a quoted-but-non-numeric versionCode or
sdkVersion overwrites the field with none, exactly as parse().ok() does. -/
def scanLine (st : BadgingScan) (line : List Char) : BadgingScan :=
  let st1 :=
    if pkgKey.isPrefixOf line then
      let a := match extract_quoted_value line nameKey with
        | some n => { st with package_name := some n }
        | none => st
      let b := match extract_quoted_value line vcKey with
        | some c => { a with version_code := parseI64 c }
        | none => a
      match extract_quoted_value line vnKey with
      | some v => { b with version_name := some v }
      | none => b
    else st
  let st2 :=
    if sdkKey.isPrefixOf line then
      match extract_quoted_value_colon line with
      | some v => { st1 with min_sdk := parseI64 v }
      | none => st1
    else st1
  let st3 :=
    if labelKey.isPrefixOf line then
      match extract_quoted_value_colon line with
      | some v => { st2 with app_name := some v }
      | none => st2
    else st2
  if iconKey.isPrefixOf line then
    match parse_icon_line line with
    | some dp => { st3 with icon_paths := st3.icon_paths ++ [dp] }
    | none => st3
  else st3

/-- Scan all lines of the badging output. -/
def badgingScan (lines : List (List Char)) : BadgingScan :=
  lines.foldl scanLine initScan

/-- First entry with the strictly greatest density: the head of the stable
descending sort of the source. -/
def selectBest (best : Int × List Char) : List (Int × List Char) → Int × List Char
  | [] => best
  | y :: ys => selectBest (if best.1 < y.1 then y else best) ys

/-- Highest-density icon path choice. -/
def selectIcon : List (Int × List Char) → Option (List Char)
  | [] => none
  | x :: xs => some (selectBest x xs).2

/-- Result record of the badging parser. -/
structure ParsedBadging where
  package_name : List Char
  version_code : Int
  version_name : List Char
  min_sdk : Int
  app_name : List Char
  icon_path : Option (List Char)
deriving DecidableEq

/-- Embedding of parse_aapt2_output (apk.rs lines 195-293) over the lines
of the tool output: scan, pick the densest icon, fail on a missing
package name or version code, apply the documented fallbacks, and drop
traversal-suspicious icon paths. -/
def parse_aapt2_output (lines : List (List Char)) : Except ApkError ParsedBadging :=
  let st := badgingScan lines
  let icon0 := selectIcon st.icon_paths
  match st.package_name with
  | none => .error (.ParseError "Missing package name")
  | some pn =>
    match st.version_code with
    | none => .error (.ParseError "Missing version code")
    | some vc =>
      let version_name := st.version_name.getD (intChars vc)
      let min_sdk := st.min_sdk.getD 21
      let app_name := st.app_name.getD pn
      let icon_path := match icon0 with
        | none => none
        | some p =>
          if hasDoubleDot p ∨ (p.headD sq) = '/' then none else some p
      .ok { package_name := pn, version_code := vc, version_name := version_name,
            min_sdk := min_sdk, app_name := app_name, icon_path := icon_path }

/-! ## Concrete fixtures used to evaluate the theorems on closed inputs -/

/-- Zip oracle of a well-formed plain APK archive. -/
def zipOpenApk : List Nat → Option (List String) := fun d =>
  if d.length < 4 then none else some ["AndroidManifest.xml"]

/-- Zip oracle of a well-formed bundle archive. -/
def zipOpenAab : List Nat → Option (List String) := fun d =>
  if d.length < 4 then none else some ["BundleConfig.pb"]

/-- Inspector metadata of the fixture package without an icon. -/
def mdC1 : ApkMetadata :=
  { package_name := "com.a", version_code := 1, version_name := "1.0",
    min_sdk := 21, app_name := "A", icon_data := none }

/-- Inspector metadata of the fixture package with an icon payload. -/
def mdC2 : ApkMetadata := { mdC1 with icon_data := some [5] }

/-- Environment whose transaction commits. -/
def envC1 : Env :=
  { zipEntries := zipOpenApk, converter := none, inspect := fun _ => .ok mdC1,
    sha256hex := fun _ => "feed", txOk := true, now := 3 }

/-- Environment whose transaction fails, with icon-bearing metadata. -/
def envC2 : Env := { envC1 with inspect := fun _ => .ok mdC2, txOk := false }

/-- Four upload bytes starting with the zip magic. -/
def dataPK : List Nat := [80, 75, 3, 4]

/-- Fixture filename. -/
def fnC : List Char := "app.apk".toList

/-- Stored version row of the fixture package. -/
def vrowC1 : VersionRow :=
  { package_name := "com.a", version_code := 1, version_name := "1.0",
    apk_path := "apks/com.a/1.apk", size := 4, sha256 := "feed", min_sdk := 21,
    uploaded_at := 0 }

/-- Stored app row of the fixture package. -/
def arowC1 : AppRow :=
  { package_name := "com.a", name := "A", description := none, icon_path := none,
    created_at := 0, updated_at := 0 }

/-- Store already holding version 1 of the fixture package. -/
def storeC1 : Store :=
  { apps := [arowC1], versions := [vrowC1], apkFiles := [(("com.a", 1), [9, 9, 9, 9])],
    apkDirs := ["com.a"], icons := [] }

/-- Empty store. -/
def storeE : Store :=
  { apps := [], versions := [], apkFiles := [], apkDirs := [], icons := [] }

/-- Store holding the fixture package with an earlier icon but no version
row for version 1. -/
def storeC2b : Store :=
  { apps := [arowC1], versions := [], apkFiles := [], apkDirs := [],
    icons := [("com.a", [7])] }

/-- Store holding the fixture package with exactly one version, its APK
file and directory, and its icon. -/
def storeC9 : Store :=
  { apps := [arowC1], versions := [vrowC1], apkFiles := [(("com.a", 1), [9])],
    apkDirs := ["com.a"], icons := [("com.a", [7])] }

/-- Catalog row used by the update_app fixtures. -/
def arowB : AppRow :=
  { package_name := "a.b", name := "N", description := some "D", icon_path := none,
    created_at := 0, updated_at := 0 }

/-- One-row catalog used by the update_app fixtures. -/
def demoApps : List AppRow := [arowB]

/-- Zip oracle of an archive with neither marker entry. -/
def zipOpenPlain : List Nat → Option (List String) := fun d =>
  if d.length < 4 then none else some ["foo.txt"]

/-- Fixture filename without a decisive suffix. -/
def fnZip : List Char := "a.zip".toList

/-- Environment whose zip oracle reports neither marker entry. -/
def envC5 : Env := { envC1 with zipEntries := zipOpenPlain }

/-- A minimal badging line with only a package name and a versionCode. -/
def lineMin : List Char :=
  "package: name=".toList ++ [sq] ++ "com.test".toList ++ [sq] ++
    " versionCode=".toList ++ [sq, '1', sq]

/-! ## Support lemmas: digits, numerals, trimming, splitting -/

theorem goDigits_append (xs ys : List Char) (acc : Nat) :
    goDigits (xs ++ ys) acc =
      match goDigits xs acc with
      | some a => goDigits ys a
      | none => none := by
  induction xs generalizing acc with
  | nil => simp [goDigits]
  | cons c t ih =>
    simp only [List.cons_append, goDigits]
    rcases h : digitVal c with _ | d <;> simp [h, ih]

theorem digitVal_digitCh (d : Nat) (h : d < 10) : digitVal (digitCh d) = some d := by
  interval_cases d <;> decide

theorem digitCh_toNat (d : Nat) (h : d < 10) : (digitCh d).toNat = 48 + d := by
  interval_cases d <;> decide

theorem natCharsAux_zero (fuel : Nat) : natCharsAux fuel 0 = [] := by
  cases fuel <;> simp [natCharsAux]

theorem natCharsAux_digit (fuel : Nat) :
    ∀ n, n ≤ fuel → ∀ c ∈ natCharsAux fuel n, ∃ d, d < 10 ∧ c = digitCh d := by
  induction fuel with
  | zero => intro n hn c hc; interval_cases n; simp [natCharsAux] at hc
  | succ f ih =>
    intro n hn c hc
    by_cases h0 : n = 0
    · subst h0; simp [natCharsAux] at hc
    · rw [natCharsAux, if_neg h0] at hc
      rcases List.mem_append.mp hc with hc | hc
      · have hlt : n / 10 < n := Nat.div_lt_self (Nat.pos_of_ne_zero h0) (by norm_num)
        exact ih (n / 10) (by omega) c hc
      · refine ⟨n % 10, by omega, ?_⟩
        simpa using hc

theorem natCharsAux_ne_nil (fuel n : Nat) (hf : n ≤ fuel) (h0 : 0 < n) :
    natCharsAux fuel n ≠ [] := by
  cases fuel with
  | zero => omega
  | succ f => rw [natCharsAux, if_neg (by omega)]; simp

theorem natChars_digit_range (n : Nat) :
    ∀ c ∈ natChars n, 48 ≤ c.toNat ∧ c.toNat ≤ 57 := by
  intro c hc
  by_cases h0 : n = 0
  · subst h0; simp [natChars] at hc; subst hc; decide
  · rw [natChars, if_neg h0] at hc
    obtain ⟨d, hd, rfl⟩ := natCharsAux_digit n n le_rfl c hc
    rw [digitCh_toNat d hd]; omega

theorem natChars_ne_nil (n : Nat) : natChars n ≠ [] := by
  by_cases h0 : n = 0
  · subst h0; simp [natChars]
  · rw [natChars, if_neg h0]
    exact natCharsAux_ne_nil n n le_rfl (Nat.pos_of_ne_zero h0)

theorem not_dash_of_digit {c : Char} (h : 48 ≤ c.toNat ∧ c.toNat ≤ 57) : ¬ c = '-' := by
  rintro rfl; revert h; decide

theorem not_plus_of_digit {c : Char} (h : 48 ≤ c.toNat ∧ c.toNat ≤ 57) : ¬ c = '+' := by
  rintro rfl; revert h; decide

theorem not_ws_of_digit {c : Char} (h : 48 ≤ c.toNat ∧ c.toNat ≤ 57) : isWS c = false := by
  have h32 : ¬ c = ' ' := by rintro rfl; revert h; decide
  have h9 : ¬ c = '\t' := by rintro rfl; revert h; decide
  have h13 : ¬ c = '\r' := by rintro rfl; revert h; decide
  have h10 : ¬ c = '\n' := by rintro rfl; revert h; decide
  simp [isWS, Char.isWhitespace, h32, h9, h13, h10]

theorem ws_not_dash {c : Char} (h : isWS c = true) : ¬ c = '-' := by
  rintro rfl; revert h; decide

theorem natChars_no_dash (n : Nat) : ∀ c ∈ natChars n, ¬ c = '-' :=
  fun c hc => not_dash_of_digit (natChars_digit_range n c hc)

theorem natChars_no_ws (n : Nat) : ∀ c ∈ natChars n, isWS c = false :=
  fun c hc => not_ws_of_digit (natChars_digit_range n c hc)

theorem dropWhile_all_false {p : Char → Bool} {l : List Char}
    (h : ∀ c ∈ l, p c = false) : l.dropWhile p = l := by
  cases l with
  | nil => rfl
  | cons c t => simp [List.dropWhile_cons, h c (by simp)]

theorem dropWhile_ws_append {p : Char → Bool} {w : List Char} (h : ∀ c ∈ w, p c = true) :
    ∀ l, (w ++ l).dropWhile p = l.dropWhile p := by
  induction w with
  | nil => intro l; rfl
  | cons c t ih =>
    intro l
    have hc := h c (by simp)
    simp only [List.cons_append, List.dropWhile_cons, hc, if_true]
    exact ih (fun x hx => h x (by simp [hx])) l

theorem trim_of_no_ws {l : List Char} (h : ∀ c ∈ l, isWS c = false) : trimChars l = l := by
  unfold trimChars
  rw [dropWhile_all_false h,
      dropWhile_all_false (fun c hc => h c (List.mem_reverse.mp hc)),
      List.reverse_reverse]

theorem trim_natChars (n : Nat) : trimChars (natChars n) = natChars n :=
  trim_of_no_ws (natChars_no_ws n)

theorem trim_ws_wrap {w1 w2 d : List Char} (h1 : ∀ c ∈ w1, isWS c = true)
    (h2 : ∀ c ∈ w2, isWS c = true) (hd : ∀ c ∈ d, isWS c = false) (hne : d ≠ []) :
    trimChars (w1 ++ d ++ w2) = d := by
  unfold trimChars
  rw [List.append_assoc, dropWhile_ws_append h1]
  obtain ⟨c, t, rfl⟩ := List.exists_cons_of_ne_nil hne
  rw [List.cons_append, List.dropWhile_cons, hd c (by simp)]
  simp only [if_false, Bool.false_eq_true]
  rw [← List.cons_append, List.reverse_append,
      dropWhile_ws_append (fun x hx => h2 x (List.mem_reverse.mp hx))]
  have hrev : ∀ x ∈ (c :: t).reverse, isWS x = false :=
    fun x hx => hd x (List.mem_reverse.mp hx)
  rw [dropWhile_all_false hrev, List.reverse_reverse]

theorem splitDash_ne_nil (l : List Char) : splitDash l ≠ [] := by
  cases l with
  | nil => simp [splitDash]
  | cons c t => unfold splitDash; split <;> simp

theorem splitDash_no_dash {l : List Char} (h : ∀ c ∈ l, ¬ c = '-') : splitDash l = [l] := by
  induction l with
  | nil => rfl
  | cons c t ih =>
    rw [splitDash, if_neg (h c (by simp)), ih (fun x hx => h x (by simp [hx]))]
    simp

theorem splitDash_append (l1 l2 : List Char) (h : ∀ c ∈ l1, ¬ c = '-') :
    splitDash (l1 ++ '-' :: l2) = l1 :: splitDash l2 := by
  induction l1 with
  | nil => simp [splitDash]
  | cons c t ih =>
    rw [List.cons_append, splitDash, if_neg (h c (by simp)),
        ih (fun x hx => h x (by simp [hx]))]
    simp

theorem splitDash_length (l : List Char) : (splitDash l).length = l.count '-' + 1 := by
  induction l with
  | nil => simp [splitDash]
  | cons c t ih =>
    rw [splitDash]
    by_cases hc : c = '-'
    · subst hc; simp [List.count_cons, ih]
    · rw [if_neg hc]
      cases hsp : splitDash t with
      | nil => exact absurd hsp (splitDash_ne_nil t)
      | cons p ps =>
        rw [hsp] at ih
        simp only [List.count_cons] at *
        simp [hc, ← ih]

theorem goDigits_natCharsAux (fuel : Nat) :
    ∀ n acc, n ≤ fuel → 0 < n →
      ∃ k, 0 < k ∧ goDigits (natCharsAux fuel n) acc = some (acc * 10 ^ k + n) := by
  induction fuel with
  | zero => intro n acc h h0; omega
  | succ f ih =>
    intro n acc h h0
    rw [natCharsAux, if_neg (by omega)]
    by_cases hq : n / 10 = 0
    · rw [hq, natCharsAux_zero, List.nil_append]
      refine ⟨1, by omega, ?_⟩
      have hm : n % 10 = n := by omega
      rw [hm]
      simp [goDigits, digitVal_digitCh n (by omega)]
    · have hlt : n / 10 < n := Nat.div_lt_self h0 (by norm_num)
      obtain ⟨k, hk, hgo⟩ := ih (n / 10) acc (by omega) (Nat.pos_of_ne_zero hq)
      rw [goDigits_append, hgo]
      refine ⟨k + 1, by omega, ?_⟩
      simp only [goDigits, digitVal_digitCh (n % 10) (by omega)]
      congr 1
      have hdm : n / 10 * 10 + n % 10 = n := by omega
      calc (acc * 10 ^ k + n / 10) * 10 + n % 10
          = acc * 10 ^ k * 10 + (n / 10 * 10 + n % 10) := by ring
        _ = acc * 10 ^ (k + 1) + n := by rw [hdm, pow_succ, ← mul_assoc]

theorem parseU64_natChars (n : Nat) (h : n < 2 ^ 64) : parseU64 (natChars n) = some n := by
  by_cases h0 : n = 0
  · subst h0; decide
  · rw [natChars, if_neg h0]
    have hpos : 0 < n := Nat.pos_of_ne_zero h0
    obtain ⟨k, hk, hgo⟩ := goDigits_natCharsAux n n 0 le_rfl hpos
    have hne : natCharsAux n n ≠ [] := natCharsAux_ne_nil n n le_rfl hpos
    obtain ⟨c, t, hct⟩ := List.exists_cons_of_ne_nil hne
    have hcd : 48 ≤ c.toNat ∧ c.toNat ≤ 57 := by
      have : c ∈ natChars n := by rw [natChars, if_neg h0, hct]; simp
      exact natChars_digit_range n c this
    have hplus : headPlus (natCharsAux n n) = natCharsAux n n := by
      rw [hct, headPlus, if_neg (not_plus_of_digit hcd)]
    unfold parseU64
    simp only [hplus]
    rw [hct]
    simp only [List.isEmpty_cons, Bool.false_eq_true, if_false]
    rw [← hct, hgo]
    simp only [Nat.zero_mul, Nat.zero_add]
    rw [if_pos h]

theorem natChars_isEmpty (n : Nat) : (natChars n).isEmpty = false := by
  cases h : natChars n with
  | nil => exact absurd h (natChars_ne_nil n)
  | cons c t => rfl

/-! ## parse_range_header composition lemmas -/

theorem trim_nil : trimChars [] = [] := rfl

theorem stripBytes_append (r : List Char) : stripBytes (bytesEq ++ r) = some r := by
  unfold stripBytes
  rw [if_pos, show (6 : Nat) = bytesEq.length from rfl, List.drop_left]
  exact List.isPrefixOf_iff_prefix.mpr (List.prefix_append bytesEq r)

theorem parse_range_header_strip (r : List Char) (s : Nat) :
    parse_range_header (bytesEq ++ r) s = parseSpec r s := by
  unfold parse_range_header
  rw [stripBytes_append]

theorem parse_range_header_split (p0 p1 : List Char) (s : Nat)
    (h0 : ∀ c ∈ p0, ¬ c = '-') (h1 : ∀ c ∈ p1, ¬ c = '-') :
    parse_range_header (bytesEq ++ (p0 ++ '-' :: p1)) s = parseParts p0 p1 s := by
  rw [parse_range_header_strip]
  unfold parseSpec
  rw [splitDash_append p0 p1 h0, splitDash_no_dash h1]

theorem parseParts_numerals (a b s : Nat) (ha : a < 2 ^ 64) (hb : b < 2 ^ 64) :
    parseParts (natChars a) (natChars b) s =
      (if s ≤ a then .error .NotSatisfiable
       else if min b (s - 1) < a then .error .NotSatisfiable
       else .ok (a, min b (s - 1))) := by
  unfold parseParts
  simp only [trim_natChars, natChars_isEmpty, Bool.false_eq_true, if_false,
    parseU64_natChars a ha, parseU64_natChars b hb]

theorem parseParts_open (a s : Nat) (ha : a < 2 ^ 64) :
    parseParts (natChars a) [] s =
      (if s ≤ a then .error .NotSatisfiable
       else if s - 1 < a then .error .NotSatisfiable else .ok (a, s - 1)) := by
  unfold parseParts
  simp only [trim_nil, trim_natChars, natChars_isEmpty, Bool.false_eq_true, if_false,
    List.isEmpty_nil, if_true, parseU64_natChars a ha]

theorem parseParts_suffix (n s : Nat) (hn : n < 2 ^ 64) :
    parseParts [] (natChars n) s =
      (if n = 0 then .error .NotSatisfiable else .ok (s - n, s - 1)) := by
  unfold parseParts
  simp only [trim_nil, trim_natChars, List.isEmpty_nil, if_true, parseU64_natChars n hn]

theorem parseParts_bad_start (p0 p1 : List Char) (s : Nat) (hne : trimChars p0 ≠ [])
    (hbad : parseU64 (trimChars p0) = none) :
    parseParts p0 p1 s = .error .InvalidFormat := by
  unfold parseParts
  have hemp : (trimChars p0).isEmpty = false := by
    cases h : trimChars p0 with
    | nil => exact absurd h hne
    | cons c t => rfl
  simp only [hemp, Bool.false_eq_true, if_false, hbad]

theorem parseParts_bad_end (a : Nat) (p1 : List Char) (s : Nat) (ha : a < 2 ^ 64)
    (hne : trimChars p1 ≠ []) (hbad : parseU64 (trimChars p1) = none) :
    parseParts (natChars a) p1 s =
      (if s ≤ a then .error .NotSatisfiable else .error .InvalidFormat) := by
  unfold parseParts
  have hemp : (trimChars p1).isEmpty = false := by
    cases h : trimChars p1 with
    | nil => exact absurd h hne
    | cons c t => rfl
  simp only [trim_natChars, natChars_isEmpty, Bool.false_eq_true, if_false,
    parseU64_natChars a ha, hemp, hbad]

theorem parseSpec_many_dashes (spec : List Char) (s : Nat) (h : 2 ≤ spec.count '-') :
    parseSpec spec s = .error .InvalidFormat := by
  unfold parseSpec
  have hlen := splitDash_length spec
  rcases hsp : splitDash spec with _ | ⟨p, _ | ⟨q, _ | ⟨r, t⟩⟩⟩
  · exact absurd hsp (splitDash_ne_nil spec)
  · rfl
  · rw [hsp] at hlen; simp at hlen; omega
  · rfl

theorem parse_range_header_notbytes (hdr : List Char) (s : Nat)
    (h : bytesEq.isPrefixOf hdr = false) :
    parse_range_header hdr s = .error .InvalidFormat := by
  unfold parse_range_header stripBytes
  rw [h]
  rfl

theorem serve_file_ok {content : List Nat} {h : List Char} {a b : Nat}
    (hp : parse_range_header h content.length = .ok (a, b)) :
    serve_file content (some h) =
      .ranged a b content.length ((content.drop a).take (b - a + 1)) := by
  simp only [serve_file]
  rw [hp]

theorem serve_file_invalid {content : List Nat} {h : List Char}
    (hp : parse_range_header h content.length = .error .InvalidFormat) :
    serve_file content (some h) = .full content := by
  simp only [serve_file]
  rw [hp]

theorem serve_file_notsat {content : List Nat} {h : List Char}
    (hp : parse_range_header h content.length = .error .NotSatisfiable) :
    serve_file content (some h) = .notSatisfiable content.length := by
  simp only [serve_file]
  rw [hp]

theorem rangeHdr_shape (a b : Nat) :
    rangeHdr a b = bytesEq ++ (natChars a ++ '-' :: natChars b) := by
  simp [rangeHdr, List.append_assoc]

theorem openHdr_shape (a : Nat) :
    openHdr a = bytesEq ++ (natChars a ++ '-' :: ([] : List Char)) := by
  simp [openHdr, List.append_assoc]

theorem suffixHdr_shape (n : Nat) :
    suffixHdr n = bytesEq ++ (([] : List Char) ++ '-' :: natChars n) := by
  simp [suffixHdr]

/-- Parse result of "bytes=a-b" on decimal numerals within u64 range. -/
theorem parse_rangeHdr (a b s : Nat) (ha : a < 2 ^ 64) (hb : b < 2 ^ 64) :
    parse_range_header (rangeHdr a b) s =
      (if s ≤ a then .error .NotSatisfiable
       else if min b (s - 1) < a then .error .NotSatisfiable
       else .ok (a, min b (s - 1))) := by
  rw [rangeHdr_shape,
      parse_range_header_split _ _ s (natChars_no_dash a) (natChars_no_dash b),
      parseParts_numerals a b s ha hb]

/-- Parse result of "bytes=a-" on a decimal numeral within u64 range. -/
theorem parse_openHdr (a s : Nat) (ha : a < 2 ^ 64) :
    parse_range_header (openHdr a) s =
      (if s ≤ a then .error .NotSatisfiable
       else if s - 1 < a then .error .NotSatisfiable else .ok (a, s - 1)) := by
  rw [openHdr_shape,
      parse_range_header_split _ _ s (natChars_no_dash a) (by intro c hc; simp at hc),
      parseParts_open a s ha]

/-- Parse result of "bytes=-n" on a decimal numeral within u64 range. -/
theorem parse_suffixHdr (n s : Nat) (hn : n < 2 ^ 64) :
    parse_range_header (suffixHdr n) s =
      (if n = 0 then .error .NotSatisfiable else .ok (s - n, s - 1)) := by
  rw [suffixHdr_shape,
      parse_range_header_split _ _ s (by intro c hc; simp at hc) (natChars_no_dash n),
      parseParts_suffix n s hn]

/-! ## Claim C3: the Range serving table -/

/-- C3 (amended): for every file of size s > 0 the table of section 4.1
holds as follows.  An absent Range header, one not starting with
"bytes=", one with more than one dash, one with a non-numeric start, and
one with a non-numeric end whose numeric start is below s are all served
as a 200 with the entire contents; however a header with numeric start
at or past s is answered 416 even when its end part is non-numeric,
because the satisfiability check of the source precedes the end parse
(this is the single amendment to the claim).  "bytes=a-b" with
a le b lt s is a 206 with bytes [a, b]; with b past the end the 206 is
clamped to s - 1; "bytes=a-" yields bytes [a, s - 1]; "bytes=-n" with
n > 0 yields the last min(n, s) bytes; start at or past s, "bytes=-0"
and a > b yield a 416 with empty body and Content-Range bytes */s. -/
theorem C3_range_semantics (content : List Nat) (s : Nat) (hs : s = content.length)
    (hpos : 0 < s) :
    (serve_file content none = .full content)
  ∧ (∀ hdr : List Char, bytesEq.isPrefixOf hdr = false →
      serve_file content (some hdr) = .full content)
  ∧ (∀ spec : List Char, 2 ≤ spec.count '-' →
      serve_file content (some (bytesEq ++ spec)) = .full content)
  ∧ (∀ p0 p1 : List Char, (∀ c ∈ p0, ¬ c = '-') → (∀ c ∈ p1, ¬ c = '-') →
      trimChars p0 ≠ [] → parseU64 (trimChars p0) = none →
      serve_file content (some (bytesEq ++ (p0 ++ '-' :: p1))) = .full content)
  ∧ (∀ a : Nat, ∀ p1 : List Char, a < 2 ^ 64 → (∀ c ∈ p1, ¬ c = '-') →
      trimChars p1 ≠ [] → parseU64 (trimChars p1) = none →
      (a < s → serve_file content (some (bytesEq ++ (natChars a ++ '-' :: p1))) = .full content)
      ∧ (s ≤ a → serve_file content (some (bytesEq ++ (natChars a ++ '-' :: p1))) =
          .notSatisfiable s))
  ∧ (∀ a b : Nat, a ≤ b → b < s → b < 2 ^ 64 →
      serve_file content (some (rangeHdr a b)) =
        .ranged a b s ((content.drop a).take (b - a + 1)))
  ∧ (∀ a b : Nat, a < s → s ≤ b → b < 2 ^ 64 →
      serve_file content (some (rangeHdr a b)) = .ranged a (s - 1) s (content.drop a))
  ∧ (∀ a : Nat, a < s → a < 2 ^ 64 →
      serve_file content (some (openHdr a)) = .ranged a (s - 1) s (content.drop a))
  ∧ (∀ n : Nat, 0 < n → n < 2 ^ 64 →
      serve_file content (some (suffixHdr n)) =
        .ranged (s - n) (s - 1) s (content.drop (s - n)))
  ∧ (∀ a b : Nat, s ≤ a → a < 2 ^ 64 → b < 2 ^ 64 →
      serve_file content (some (rangeHdr a b)) = .notSatisfiable s)
  ∧ (∀ a : Nat, s ≤ a → a < 2 ^ 64 →
      serve_file content (some (openHdr a)) = .notSatisfiable s)
  ∧ (serve_file content (some (suffixHdr 0)) = .notSatisfiable s)
  ∧ (∀ a b : Nat, b < a → a < s → a < 2 ^ 64 →
      serve_file content (some (rangeHdr a b)) = .notSatisfiable s) := by
  subst hs
  refine ⟨rfl, ?_, ?_, ?_, ?_, ?_, ?_, ?_, ?_, ?_, ?_, ?_, ?_⟩
  · intro hdr h
    exact serve_file_invalid (parse_range_header_notbytes hdr _ h)
  · intro spec h
    refine serve_file_invalid ?_
    rw [parse_range_header_strip, parseSpec_many_dashes spec _ h]
  · intro p0 p1 h0 h1 hne hbad
    refine serve_file_invalid ?_
    rw [parse_range_header_split p0 p1 _ h0 h1, parseParts_bad_start p0 p1 _ hne hbad]
  · intro a p1 ha h1 hne hbad
    constructor
    · intro hlt
      refine serve_file_invalid ?_
      rw [parse_range_header_split _ p1 _ (natChars_no_dash a) h1,
          parseParts_bad_end a p1 _ ha hne hbad, if_neg (by omega)]
    · intro hge
      refine serve_file_notsat ?_
      rw [parse_range_header_split _ p1 _ (natChars_no_dash a) h1,
          parseParts_bad_end a p1 _ ha hne hbad, if_pos hge]
  · intro a b hab hb hb64
    have hmin : min b (content.length - 1) = b := by omega
    have hp : parse_range_header (rangeHdr a b) content.length = .ok (a, b) := by
      rw [parse_rangeHdr a b _ (by omega) hb64, if_neg (by omega), hmin, if_neg (by omega)]
    exact serve_file_ok hp
  · intro a b halt hble hb64
    have hmin : min b (content.length - 1) = content.length - 1 := by omega
    have hp : parse_range_header (rangeHdr a b) content.length =
        .ok (a, content.length - 1) := by
      rw [parse_rangeHdr a b _ (by omega) hb64, if_neg (by omega), hmin, if_neg (by omega)]
    have := serve_file_ok hp
    rwa [show (content.drop a).take (content.length - 1 - a + 1) = content.drop a by
      have hlen : (content.drop a).length = content.length - a := by simp
      rw [show content.length - 1 - a + 1 = (content.drop a).length by omega, List.take_length]]
      at this
  · intro a hlt ha64
    have hp : parse_range_header (openHdr a) content.length = .ok (a, content.length - 1) := by
      rw [parse_openHdr a _ ha64, if_neg (by omega), if_neg (by omega)]
    have := serve_file_ok hp
    rwa [show (content.drop a).take (content.length - 1 - a + 1) = content.drop a by
      have hlen : (content.drop a).length = content.length - a := by simp
      rw [show content.length - 1 - a + 1 = (content.drop a).length by omega, List.take_length]]
      at this
  · intro n hn hn64
    have hp : parse_range_header (suffixHdr n) content.length =
        .ok (content.length - n, content.length - 1) := by
      rw [parse_suffixHdr n _ hn64, if_neg (by omega)]
    have := serve_file_ok hp
    rwa [show (content.drop (content.length - n)).take
          (content.length - 1 - (content.length - n) + 1) = content.drop (content.length - n) by
      have hlen : (content.drop (content.length - n)).length
          = content.length - (content.length - n) := by simp
      rw [show content.length - 1 - (content.length - n) + 1
            = (content.drop (content.length - n)).length by omega, List.take_length]]
      at this
  · intro a b hge ha64 hb64
    refine serve_file_notsat ?_
    rw [parse_rangeHdr a b _ ha64 hb64, if_pos (by omega)]
  · intro a hge ha64
    refine serve_file_notsat ?_
    rw [parse_openHdr a _ ha64, if_pos (by omega)]
  · refine serve_file_notsat ?_
    rw [parse_suffixHdr 0 _ (by norm_num), if_pos rfl]
  · intro a b hba hlt ha64
    refine serve_file_notsat ?_
    have hmin : min b (content.length - 1) = b := by omega
    rw [parse_rangeHdr a b _ ha64 (by omega), if_neg (by omega), hmin, if_pos (by omega)]

/-- C3 counterexample: on a 2-byte file, the header "bytes=2-x" has a
non-numeric end part, so the claim as stated promises a 200 with the
whole body, yet the source answers 416 because the start bound is
checked against the size before the end part is parsed. -/
theorem C3_counterexample :
    serve_file [0, 0] (some ("bytes=2-x".toList)) = ServeOutcome.notSatisfiable 2
  ∧ serve_file [0, 0] (some ("bytes=2-x".toList)) ≠ ServeOutcome.full [0, 0] := by
  constructor
  · decide
  · decide

/-- Witness evaluating C3_range_semantics on a concrete 4-byte file. -/
theorem C3_range_semantics_witness :
    serve_file [3, 5, 7, 9] (some (rangeHdr 1 2)) = ServeOutcome.ranged 1 2 4 [5, 7]
  ∧ serve_file [3, 5, 7, 9] (some (suffixHdr 3)) = ServeOutcome.ranged 1 3 4 [5, 7, 9]
  ∧ serve_file [3, 5, 7, 9] (some (rangeHdr 9 12)) = ServeOutcome.notSatisfiable 4
  ∧ serve_file [3, 5, 7, 9] (some (openHdr 2)) = ServeOutcome.ranged 2 3 4 [7, 9] := by
  obtain ⟨h1, h2, h3, h4, h5, h6, h7, h8, h9, h10, h11, h12, h13⟩ :=
    C3_range_semantics [3, 5, 7, 9] 4 rfl (by norm_num)
  refine ⟨?_, ?_, ?_, ?_⟩
  · rw [h6 1 2 (by norm_num) (by norm_num) (by norm_num)]; decide
  · rw [h9 3 (by norm_num) (by norm_num)]; decide
  · rw [h10 9 12 (by norm_num) (by norm_num) (by norm_num)]
  · rw [h8 2 (by norm_num) (by norm_num)]; decide

/-! ## Claim C10: whitespace around the numeric Range parts -/

/-- C10: the Range parser tolerates whitespace around the two numeric
parts: for every runs of whitespace w1..w4, the header
"bytes=" w1 a w2 "-" w3 b w4 parses exactly as "bytes=a-b" does, for any
file size, because both pieces are trimmed before parsing. -/
theorem C10_range_whitespace (a b s : Nat) (w1 w2 w3 w4 : List Char)
    (h1 : ∀ c ∈ w1, isWS c = true) (h2 : ∀ c ∈ w2, isWS c = true)
    (h3 : ∀ c ∈ w3, isWS c = true) (h4 : ∀ c ∈ w4, isWS c = true) :
    parse_range_header
        (bytesEq ++ ((w1 ++ natChars a ++ w2) ++ '-' :: (w3 ++ natChars b ++ w4))) s
      = parse_range_header (rangeHdr a b) s := by
  have hno1 : ∀ c ∈ w1 ++ natChars a ++ w2, ¬ c = '-' := by
    intro c hc
    rcases List.mem_append.mp hc with hc | hc
    · rcases List.mem_append.mp hc with hc | hc
      · exact ws_not_dash (h1 c hc)
      · exact natChars_no_dash a c hc
    · exact ws_not_dash (h2 c hc)
  have hno2 : ∀ c ∈ w3 ++ natChars b ++ w4, ¬ c = '-' := by
    intro c hc
    rcases List.mem_append.mp hc with hc | hc
    · rcases List.mem_append.mp hc with hc | hc
      · exact ws_not_dash (h3 c hc)
      · exact natChars_no_dash b c hc
    · exact ws_not_dash (h4 c hc)
  rw [parse_range_header_split _ _ s hno1 hno2, rangeHdr_shape,
      parse_range_header_split _ _ s (natChars_no_dash a) (natChars_no_dash b)]
  unfold parseParts
  rw [trim_ws_wrap h1 h2 (natChars_no_ws a) (natChars_ne_nil a),
      trim_ws_wrap h3 h4 (natChars_no_ws b) (natChars_ne_nil b),
      trim_natChars a, trim_natChars b]

/-- Witness evaluating C10_range_whitespace on the spec example. -/
theorem C10_range_whitespace_witness :
    parse_range_header ("bytes= 0 - 99 ".toList) 1000 = .ok (0, 99) := by
  have h := C10_range_whitespace 0 99 1000 [' '] [' '] [' '] [' ']
    (by decide) (by decide) (by decide) (by decide)
  have e : "bytes= 0 - 99 ".toList =
      bytesEq ++ (([' '] ++ natChars 0 ++ [' ']) ++ '-' :: ([' '] ++ natChars 99 ++ [' '])) := by
    decide
  rw [e, h]
  decide


/-! ## Claim C6: package name validation -/

theorem charBytes_pos (c : Char) : 0 < charBytes c := by
  unfold charBytes
  split
  · norm_num
  · split
    · norm_num
    · split <;> norm_num

theorem utf8Len_eq_zero {l : List Char} : utf8Len l = 0 ↔ l = [] := by
  cases l with
  | nil => simp [utf8Len]
  | cons c t =>
    simp only [utf8Len, List.map_cons, List.sum_cons]
    have := charBytes_pos c
    constructor
    · intro h; exact absurd h (by omega)
    · intro h; simp at h

/-- C6: validate_package_name accepts a name exactly when it is 1-255
UTF-8 bytes long, contains a dot, and contains no slash, no backslash,
no double dot and no NUL; every rejected name fails with
InvalidPackageName. -/
theorem C6_validate_package_name (name : List Char) :
    (validate_package_name name = .ok () ↔
      (1 ≤ utf8Len name ∧ utf8Len name ≤ 255) ∧ name.contains '.' = true
        ∧ name.contains '/' = false ∧ name.contains '\\' = false
        ∧ hasDoubleDot name = false ∧ name.contains nulChar = false)
  ∧ (validate_package_name name ≠ .ok () →
      ∃ msg, validate_package_name name = .error (.InvalidPackageName msg)) := by
  have hz : utf8Len name = 0 ↔ name = [] := utf8Len_eq_zero
  have hie : name.isEmpty = true ↔ name = [] := by
    cases name <;> simp
  unfold validate_package_name
  split_ifs with h1 h2 h3 h4
  · refine ⟨?_, fun _ => ⟨_, rfl⟩⟩
    constructor
    · intro h; exact absurd h (by simp)
    · rintro ⟨-, -, ha, hb, hc, -⟩
      rcases h1 with h1 | h1 | h1
      · rw [ha] at h1; exact absurd h1 (by simp)
      · rw [hb] at h1; exact absurd h1 (by simp)
      · rw [hc] at h1; exact absurd h1 (by simp)
  · refine ⟨?_, fun _ => ⟨_, rfl⟩⟩
    constructor
    · intro h; exact absurd h (by simp)
    · rintro ⟨-, -, -, -, -, hn⟩
      rw [hn] at h2; exact absurd h2 (by simp)
  · refine ⟨?_, fun _ => ⟨_, rfl⟩⟩
    constructor
    · intro h; exact absurd h (by simp)
    · rintro ⟨⟨hlo, hhi⟩, -⟩
      rcases h3 with h3 | h3
      · have he : name = [] := hie.mp h3
        rw [← hz] at he; omega
      · omega
  · refine ⟨?_, fun h => absurd rfl h⟩
    constructor
    · intro _h
      push_neg at h1 h3
      refine ⟨⟨?_, ?_⟩, ?_, ?_, ?_, ?_, ?_⟩
      · rcases h3 with ⟨hni, -⟩
        have hne : ¬ name = [] := fun he => by
          rw [hie.mpr he] at hni
          exact absurd rfl hni
        have h0 : ¬ utf8Len name = 0 := fun h0 => hne (hz.mp h0)
        omega
      · rcases h3 with ⟨-, hlen⟩; omega
      · simpa using h4
      · simpa using h1.1
      · simpa using h1.2.1
      · simpa using h1.2.2
      · simpa using h2
    · intro _h; rfl
  · refine ⟨?_, fun _ => ⟨_, rfl⟩⟩
    constructor
    · intro h; exact absurd h (by simp)
    · rintro ⟨-, hd, -⟩
      exact absurd hd (by simpa using h4)

set_option maxRecDepth 4000 in
/-- Witness evaluating C6_validate_package_name on the spec examples. -/
theorem C6_validate_package_name_witness :
    validate_package_name ("com.example".toList) = .ok ()
  ∧ (∃ m1, validate_package_name ("".toList) = .error (.InvalidPackageName m1))
  ∧ (∃ m2, validate_package_name ("nodot".toList) = .error (.InvalidPackageName m2))
  ∧ (∃ m3, validate_package_name ("../etc".toList) = .error (.InvalidPackageName m3))
  ∧ (∃ m4, validate_package_name ("a/b.c".toList) = .error (.InvalidPackageName m4))
  ∧ (∃ m5, validate_package_name ("a\\b.c".toList) = .error (.InvalidPackageName m5))
  ∧ (∃ m6, validate_package_name ("a\x00.b".toList) = .error (.InvalidPackageName m6))
  ∧ (∃ m7, validate_package_name (List.replicate 255 'a' ++ ['.']) =
      .error (.InvalidPackageName m7)) := by
  refine ⟨?_, ?_, ?_, ?_, ?_, ?_, ?_, ?_⟩
  · exact (C6_validate_package_name ("com.example".toList)).1.mpr (by decide)
  · exact (C6_validate_package_name ("".toList)).2 (by decide)
  · exact (C6_validate_package_name ("nodot".toList)).2 (by decide)
  · exact (C6_validate_package_name ("../etc".toList)).2 (by decide)
  · exact (C6_validate_package_name ("a/b.c".toList)).2 (by decide)
  · exact (C6_validate_package_name ("a\\b.c".toList)).2 (by decide)
  · exact (C6_validate_package_name ("a\x00.b".toList)).2 (by decide)
  · exact (C6_validate_package_name (List.replicate 255 'a' ++ ['.'])).2 (by decide)

/-! ## Claim C1: duplicate version rejected without any change -/

/-- C1: when the materialized APK inspects to a (package, version_code)
pair that already has a Version row, process_upload fails with
VersionExists carrying that pair, and the returned state is the input
state unchanged: no database row and no file under apks/ or icons/ is
touched. -/
theorem C1_duplicate_rejected (env : Env) (maxSize : Nat) (store : Store) (fn : List Char)
    (data : List Nat) (ovn ovd : Option String) (m : ApkMetadata) (apkBytes : List Nat)
    (hsize : data.length ≤ maxSize)
    (hmat : materializeApk env data fn = .ok apkBytes)
    (hins : env.inspect apkBytes = .ok m)
    (hex : version_exists store m.package_name m.version_code = true) :
    process_upload env maxSize store fn data ovn ovd =
      (.error (.VersionExists m.package_name m.version_code), store) := by
  unfold process_upload
  rw [if_neg (by omega)]
  simp only [hmat, hins, hex, if_true]

/-- Witness evaluating C1_duplicate_rejected on the fixture store that
already holds version 1 of the fixture package. -/
theorem C1_duplicate_rejected_witness :
    process_upload envC1 10 storeC1 fnC dataPK none none =
      (.error (.VersionExists "com.a" 1), storeC1) :=
  C1_duplicate_rejected envC1 10 storeC1 fnC dataPK none none mdC1 dataPK
    (by decide) (by decide) rfl (by decide)

/-! ## Claim C4: the size gate -/

theorem materializeApk_no_ftl {env : Env} {data : List Nat} {fn : List Char} {e : UploadError}
    (h : materializeApk env data fn = .error e) : ∀ mx ac, ¬ e = .FileTooLarge mx ac := by
  unfold materializeApk at h
  rcases hd : detect_file_type env.zipEntries data fn with _ | _ | _ <;> simp only [hd] at h
  · exact absurd h (by simp)
  · rcases hc : env.converter with _ | cv <;> simp only [hc] at h
    · rintro mx ac rfl; simp at h
    · rcases hcv : cv data with e2 | apk <;> simp only [hcv] at h
      · rintro mx ac rfl; simp at h
      · exact absurd h (by simp)
  · rintro mx ac rfl; simp at h

/-- C4: process_upload fails with FileTooLarge exactly when the upload is
strictly larger than the ceiling, and then the error carries the ceiling
and the actual length while the state is unchanged; an upload of exactly
the ceiling size is never answered FileTooLarge. -/
theorem C4_size_gate (env : Env) (maxSize : Nat) (store : Store) (fn : List Char)
    (data : List Nat) (ovn ovd : Option String) :
    ((∃ mx ac, (process_upload env maxSize store fn data ovn ovd).1 =
        .error (.FileTooLarge mx ac)) ↔ maxSize < data.length)
  ∧ (maxSize < data.length →
      process_upload env maxSize store fn data ovn ovd =
        (.error (.FileTooLarge maxSize data.length), store)) := by
  constructor
  · constructor
    · rintro ⟨mx, ac, h⟩
      by_contra hle
      push_neg at hle
      unfold process_upload at h
      rw [if_neg (by omega)] at h
      rcases hm : materializeApk env data fn with e | apk <;> simp only [hm] at h
      · exact materializeApk_no_ftl hm mx ac (by simpa using h)
      · rcases hi : env.inspect apk with e | mtd <;> simp only [hi] at h
        · simp at h
        · by_cases hv : version_exists store mtd.package_name mtd.version_code = true
          · rw [if_pos hv] at h; simp at h
          · rw [if_neg hv] at h
            rcases hs : save_apk store mtd.package_name mtd.version_code apk with e | pr <;>
              simp only [hs] at h
            · simp at h
            · obtain ⟨apk_key, s1⟩ := pr
              rcases htx : env.txOk <;> simp only [htx, Bool.false_eq_true, if_true,
                if_false] at h <;> simp at h
    · intro h
      refine ⟨maxSize, data.length, ?_⟩
      unfold process_upload
      rw [if_pos h]
  · intro h
    unfold process_upload
    rw [if_pos h]

/-- Witness evaluating C4_size_gate at the ceiling and one past it. -/
theorem C4_size_gate_witness :
    process_upload envC1 3 storeE fnC dataPK none none =
      (.error (.FileTooLarge 3 4), storeE)
  ∧ ¬ (∃ mx ac, (process_upload envC1 4 storeE fnC dataPK none none).1 =
      .error (.FileTooLarge mx ac)) := by
  constructor
  · exact (C4_size_gate envC1 3 storeE fnC dataPK none none).2 (by decide)
  · intro hex
    have h4 := (C4_size_gate envC1 4 storeE fnC dataPK none none).1.mp hex
    simp [dataPK] at h4

/-! ## Claim C5: file type detection -/

/-- C5: type detection classifies as in the source, under the sole
assumption on the zip oracle that no archive below the 4-byte magic gate
opens: an input not starting with "PK" is Unknown; an input the zip
library cannot open is Unknown; an archive holding BundleConfig.pb is
AAB even when it also holds AndroidManifest.xml; otherwise an archive
holding AndroidManifest.xml is APK; otherwise the case-insensitive
".apk"/".aab" filename suffix decides and anything else is Unknown; and
an Unknown upload that passes the size gate makes process_upload fail
with InvalidFileType leaving the state unchanged. -/
theorem C5_detect_file_type (zipOpen : List Nat → Option (List String))
    (hz : ∀ d, d.length < 4 → zipOpen d = none) :
    (∀ data fn, ¬ data.take 2 = [80, 75] →
      detect_file_type zipOpen data fn = .Unknown)
  ∧ (∀ data fn, zipOpen data = none → detect_file_type zipOpen data fn = .Unknown)
  ∧ (∀ data fn names, zipOpen data = some names → data.take 2 = [80, 75] →
      names.contains "BundleConfig.pb" = true → detect_file_type zipOpen data fn = .Aab)
  ∧ (∀ data fn names, zipOpen data = some names → data.take 2 = [80, 75] →
      names.contains "BundleConfig.pb" = false →
      names.contains "AndroidManifest.xml" = true →
      detect_file_type zipOpen data fn = .Apk)
  ∧ (∀ data fn names, zipOpen data = some names → data.take 2 = [80, 75] →
      names.contains "BundleConfig.pb" = false →
      names.contains "AndroidManifest.xml" = false →
      detect_file_type zipOpen data fn =
        (if dotApk.isSuffixOf (fn.map Char.toLower) then FileType.Apk
         else if dotAab.isSuffixOf (fn.map Char.toLower) then FileType.Aab
         else FileType.Unknown))
  ∧ (∀ env maxSize store fn data ovn ovd, env.zipEntries = zipOpen →
      data.length ≤ maxSize → detect_file_type zipOpen data fn = .Unknown →
      process_upload env maxSize store fn data ovn ovd =
        (.error .InvalidFileType, store)) := by
  have hlen : ∀ {data : List Nat} {names : List String}, zipOpen data = some names →
      ¬ data.length < 4 := by
    intro data names hzo hl
    rw [hz data hl] at hzo
    exact absurd hzo (by simp)
  refine ⟨?_, ?_, ?_, ?_, ?_, ?_⟩
  · intro data fn h
    unfold detect_file_type
    rw [if_pos (Or.inr h)]
  · intro data fn h
    unfold detect_file_type
    split
    · rfl
    · rw [h]
  · intro data fn names hzo hpk hbc
    unfold detect_file_type
    rw [if_neg (by push_neg; exact ⟨by have := hlen hzo; omega, hpk⟩)]
    simp only [hzo, hbc, if_true]
  · intro data fn names hzo hpk hbc hman
    unfold detect_file_type
    rw [if_neg (by push_neg; exact ⟨by have := hlen hzo; omega, hpk⟩)]
    simp only [hzo, hbc, hman, Bool.false_eq_true, if_false, if_true]
  · intro data fn names hzo hpk hbc hman
    unfold detect_file_type
    rw [if_neg (by push_neg; exact ⟨by have := hlen hzo; omega, hpk⟩)]
    simp only [hzo, hbc, hman, Bool.false_eq_true, if_false]
  · intro env maxSize store fn data ovn ovd he hsz hdet
    have hmats : materializeApk env data fn = .error .InvalidFileType := by
      unfold materializeApk
      rw [he, hdet]
    unfold process_upload
    rw [if_neg (by omega)]
    simp only [hmats]

/-- Witness evaluating C5_detect_file_type on three concrete archives and
one full pipeline run. -/
theorem C5_detect_file_type_witness :
    detect_file_type zipOpenAab [80, 75, 1, 2] fnC = .Aab
  ∧ detect_file_type zipOpenApk [80, 75, 1, 2] fnZip = .Apk
  ∧ detect_file_type zipOpenPlain [0, 75, 1, 2] fnZip = .Unknown
  ∧ detect_file_type zipOpenPlain [80, 75, 1, 2] fnC = .Apk
  ∧ process_upload envC5 10 storeE fnZip dataPK none none =
      (.error .InvalidFileType, storeE) := by
  have hzA : ∀ d : List Nat, d.length < 4 → zipOpenAab d = none := by
    intro d h; simp [zipOpenAab, h]
  have hzK : ∀ d : List Nat, d.length < 4 → zipOpenApk d = none := by
    intro d h; simp [zipOpenApk, h]
  have hzP : ∀ d : List Nat, d.length < 4 → zipOpenPlain d = none := by
    intro d h; simp [zipOpenPlain, h]
  refine ⟨?_, ?_, ?_, ?_, ?_⟩
  · exact (C5_detect_file_type zipOpenAab hzA).2.2.1 [80, 75, 1, 2] fnC
      ["BundleConfig.pb"] (by decide) (by decide) (by decide)
  · exact (C5_detect_file_type zipOpenApk hzK).2.2.2.1 [80, 75, 1, 2] fnZip
      ["AndroidManifest.xml"] (by decide) (by decide) (by decide) (by decide)
  · exact (C5_detect_file_type zipOpenPlain hzP).1 [0, 75, 1, 2] fnZip (by decide)
  · have h := (C5_detect_file_type zipOpenPlain hzP).2.2.2.2.1 [80, 75, 1, 2] fnC
      ["foo.txt"] (by decide) (by decide) (by decide) (by decide)
    rw [h]
    decide
  · exact (C5_detect_file_type zipOpenPlain hzP).2.2.2.2.2 envC5 10 storeE fnZip dataPK
      none none rfl (by decide) (by decide)

/-! ## Claim C8: partial package update -/

/-- C8 counterexample: a call of update_app that supplies none of the
three fields is a no-op, in particular the row keeps updated_at 0
instead of being refreshed to the current time 5, refuting "always
refreshes updated_at" for such calls. -/
theorem C8_counterexample :
    update_app 5 demoApps "a.b" none none none = demoApps
  ∧ demoApps.map AppRow.updated_at = [0] := by
  constructor
  · decide
  · decide

/-- C8 (amended): update_app writes exactly the supplied fields among
name, description and icon_path — an omitted field is never overwritten
and never set to NULL — leaves package_name and created_at unchanged,
touches no row of another package, and refreshes updated_at whenever at
least one field is supplied; a call supplying no field at all is a no-op
that does not refresh updated_at (the single amendment). -/
theorem C8_partial_update (now : Nat) (apps : List AppRow) (pn : String)
    (name description icon_path : Option String) :
    (name = none ∧ description = none ∧ icon_path = none →
      update_app now apps pn name description icon_path = apps)
  ∧ (name ≠ none ∨ description ≠ none ∨ icon_path ≠ none →
      ∃ g : AppRow → AppRow, update_app now apps pn name description icon_path =
          apps.map (fun r => if r.package_name = pn then g r else r)
        ∧ ∀ r : AppRow,
            (g r).package_name = r.package_name
          ∧ (g r).created_at = r.created_at
          ∧ (g r).updated_at = now
          ∧ (g r).name = (match name with | some x => x | none => r.name)
          ∧ (g r).description =
              (match description with | some x => some x | none => r.description)
          ∧ (g r).icon_path =
              (match icon_path with | some x => some x | none => r.icon_path)) := by
  constructor
  · rintro ⟨rfl, rfl, rfl⟩
    rfl
  · intro hs
    rcases name with _ | n <;> rcases description with _ | d <;> rcases icon_path with _ | i
    · simp at hs
    all_goals exact ⟨_, rfl, fun r => ⟨rfl, rfl, rfl, rfl, rfl, rfl⟩⟩

/-- Witness evaluating C8_partial_update on a one-row catalog with only
the name supplied. -/
theorem C8_partial_update_witness :
    (update_app 7 demoApps "a.b" (some "M") none none).map AppRow.updated_at = [7]
  ∧ ∃ g : AppRow → AppRow, update_app 7 demoApps "a.b" (some "M") none none =
        demoApps.map (fun r => if r.package_name = "a.b" then g r else r)
      ∧ ∀ r : AppRow, (g r).updated_at = 7 ∧ (g r).name = "M"
        ∧ (g r).description = r.description ∧ (g r).icon_path = r.icon_path
        ∧ (g r).package_name = r.package_name ∧ (g r).created_at = r.created_at := by
  constructor
  · decide
  · obtain ⟨g, hmap, hg⟩ := (C8_partial_update 7 demoApps "a.b" (some "M") none none).2
      (by simp)
    refine ⟨g, hmap, fun r => ?_⟩
    obtain ⟨h1, h2, h3, h4, h5, h6⟩ := hg r
    exact ⟨h3, h4, h5, h6, h1, h2⟩

/-! ## Store operation spec lemmas -/

theorem save_apk_spec {s : Store} {pn : String} {vc : Int} {data : List Nat}
    (hval : validate_package_name pn.toList = .ok ()) :
    save_apk s pn vc data = .ok ("apks/" ++ pn ++ "/" ++ toString vc ++ ".apk",
      { s with apkDirs := if s.apkDirs.contains pn then s.apkDirs else pn :: s.apkDirs,
               apkFiles := ((pn, vc), data) ::
                 s.apkFiles.filter (fun f => ¬ f.1 = (pn, vc)) }) := by
  unfold save_apk
  rw [hval]

theorem delete_apk_spec {s : Store} {pn : String} {vc : Int}
    (hval : validate_package_name pn.toList = .ok ()) :
    delete_apk s pn vc = .ok
      { s with apkFiles := s.apkFiles.filter (fun f => ¬ f.1 = (pn, vc)),
               apkDirs :=
                 if s.apkDirs.contains pn ∧
                     (s.apkFiles.filter (fun f => ¬ f.1 = (pn, vc))).all
                       (fun f => ¬ f.1.1 = pn) then
                   s.apkDirs.filter (fun d => ¬ d = pn)
                 else s.apkDirs } := by
  unfold delete_apk
  rw [hval]

theorem delete_icon_spec {s : Store} {pn : String}
    (hval : validate_package_name pn.toList = .ok ()) :
    delete_icon s pn = .ok { s with icons := s.icons.filter (fun f => ¬ f.1 = pn) } := by
  unfold delete_icon
  rw [hval]

theorem any_key_filter_ne {α β : Type} [DecidableEq α] (l : List (α × β)) (k : α) :
    (l.filter (fun f => ¬ f.1 = k)).any (fun f => f.1 = k) = false := by
  rw [Bool.eq_false_iff]
  intro h
  rw [List.any_eq_true] at h
  obtain ⟨f, hf, hfk⟩ := h
  rw [List.mem_filter] at hf
  simp only [decide_eq_true_eq] at hf hfk
  exact hf.2 hfk

theorem any_key_upsert {β : Type} {l : List (String × β)} {pn p : String} {d : β}
    (h : l.any (fun f => f.1 = p) = true) :
    ((pn, d) :: l.filter (fun f => ¬ f.1 = pn)).any (fun f => f.1 = p) = true := by
  by_cases hp : p = pn
  · subst hp
    simp
  · rw [List.any_eq_true] at h
    obtain ⟨f, hf, hfp⟩ := h
    simp only [decide_eq_true_eq] at hfp
    rw [List.any_eq_true]
    refine ⟨f, ?_, by simp [hfp]⟩
    rw [List.mem_cons]
    right
    rw [List.mem_filter]
    exact ⟨hf, by simp [hfp, hp]⟩

theorem saveIconPhase_frame (s : Store) (m : ApkMetadata) :
    (saveIconPhase s m).2.apkFiles = s.apkFiles
  ∧ (saveIconPhase s m).2.apps = s.apps
  ∧ (saveIconPhase s m).2.versions = s.versions
  ∧ ∀ p, hasIcon s p = true → hasIcon (saveIconPhase s m).2 p = true := by
  unfold saveIconPhase
  rcases hic : m.icon_data with _ | idata
  · exact ⟨rfl, rfl, rfl, fun p h => h⟩
  · unfold save_icon
    rcases hv : validate_package_name m.package_name.toList with e | u
    · exact ⟨rfl, rfl, rfl, fun p h => h⟩
    · refine ⟨rfl, rfl, rfl, fun p h => ?_⟩
      unfold hasIcon at h ⊢
      exact any_key_upsert h

theorem cleanup_spec {s : Store} {pn : String} {vc : Int} (b : Bool)
    (hval : validate_package_name pn.toList = .ok ()) :
    (cleanup_on_failure s pn vc b).apkFiles =
        s.apkFiles.filter (fun f => ¬ f.1 = (pn, vc))
  ∧ (cleanup_on_failure s pn vc b).icons =
        (if b then s.icons.filter (fun f => ¬ f.1 = pn) else s.icons)
  ∧ (cleanup_on_failure s pn vc b).apps = s.apps
  ∧ (cleanup_on_failure s pn vc b).versions = s.versions := by
  unfold cleanup_on_failure
  rw [delete_apk_spec hval]
  cases b
  · simp
  · simp [delete_icon_spec hval]

/-! ## Claim C9: cascade on last-version delete -/

/-- C9: for a package holding exactly one Version (and whose files under
apks/ are exactly that version's APK, per the stored-state invariant),
the admin delete-version pathway succeeds and afterwards the Version
row, the Package row, the APK file, the then-empty per-package
directory and the icon file are all gone. -/
theorem C9_cascade_delete (store : Store) (pn : String) (vc : Int) (v : VersionRow)
    (hval : validate_package_name pn.toList = .ok ())
    (hv : get_app_versions store pn = [v]) (hvc : v.version_code = vc)
    (hfs : ∀ f ∈ store.apkFiles, f.1.1 = pn → f.1.2 = vc) :
    ∃ s2, delete_version store pn vc = .ok s2
      ∧ version_exists s2 pn vc = false
      ∧ get_app s2 pn = none
      ∧ hasApkFile s2 pn vc = false
      ∧ s2.apkDirs.contains pn = false
      ∧ hasIcon s2 pn = false := by
  unfold delete_version
  rw [hv]
  rw [if_pos (by simp [hvc])]
  rw [delete_apk_spec hval]
  have hall : (store.apkFiles.filter (fun f => ¬ f.1 = (pn, vc))).all
      (fun f => ¬ f.1.1 = pn) = true := by
    rw [List.all_eq_true]
    intro f hf
    rw [List.mem_filter] at hf
    simp only [decide_eq_true_eq] at hf ⊢
    intro hpn
    exact hf.2 (by
      have h2 := hfs f hf.1 hpn
      exact Prod.ext hpn h2)
  have hdirs : (if store.apkDirs.contains pn ∧
        (store.apkFiles.filter (fun f => ¬ f.1 = (pn, vc))).all
          (fun f => ¬ f.1.1 = pn) then
      store.apkDirs.filter (fun d => ¬ d = pn)
    else store.apkDirs).contains pn = false := by
    rw [hall]
    by_cases hc : store.apkDirs.contains pn = true
    · rw [if_pos ⟨hc, rfl⟩]
      rw [Bool.eq_false_iff]
      intro hmem
      rw [List.contains_iff_exists_mem_beq] at hmem
      obtain ⟨d, hd, hbeq⟩ := hmem
      rw [List.mem_filter] at hd
      simp only [decide_eq_true_eq] at hd
      exact hd.2 ((by simpa using hbeq : pn = d).symm)
    · rw [if_neg (fun hand => hc hand.1)]
      exact Bool.eq_false_iff.mpr hc
  simp only [List.length_cons, List.length_nil]
  rw [if_pos (by trivial)]
  rw [delete_icon_spec hval]
  refine ⟨_, rfl, ?_, ?_, ?_, ?_, ?_⟩
  · unfold db_delete_app version_exists
    rw [Bool.eq_false_iff]
    intro h
    rw [List.any_eq_true] at h
    obtain ⟨w, hw, hwp⟩ := h
    simp only [List.mem_filter, decide_eq_true_eq] at hw hwp
    exact hw.2 hwp.1
  · unfold db_delete_app get_app
    rw [List.find?_eq_none]
    intro a ha
    rw [List.mem_filter] at ha
    simp only [decide_eq_true_eq] at ha ⊢
    exact ha.2
  · unfold db_delete_app hasApkFile
    exact any_key_filter_ne store.apkFiles (pn, vc)
  · exact hdirs
  · unfold db_delete_app hasIcon
    exact any_key_filter_ne store.icons pn

/-- Witness evaluating C9_cascade_delete on the fixture store with one
version, its APK file, directory and icon. -/
theorem C9_cascade_delete_witness :
    ∃ s2, delete_version storeC9 "com.a" 1 = .ok s2
      ∧ version_exists s2 "com.a" 1 = false
      ∧ get_app s2 "com.a" = none
      ∧ hasApkFile s2 "com.a" 1 = false
      ∧ s2.apkDirs.contains "com.a" = false
      ∧ hasIcon s2 "com.a" = false :=
  C9_cascade_delete storeC9 "com.a" 1 vrowC1 (by decide) (by decide) (by decide)
    (by decide)

/-! ## Claim C2: compensation when the transaction fails -/

/-- C2: when the catalog transaction fails after the APK (and possibly an
icon) was saved, process_upload deletes the freshly written APK file,
deletes the icon file exactly when the package was new, never deletes
the icon of a pre-existing package, propagates the database error, and
leaves the catalog rows unchanged. -/
theorem C2_cleanup_on_tx_failure (env : Env) (maxSize : Nat) (store : Store)
    (fn : List Char) (data : List Nat) (ovn ovd : Option String)
    (m : ApkMetadata) (apkBytes : List Nat)
    (hsize : data.length ≤ maxSize)
    (hmat : materializeApk env data fn = .ok apkBytes)
    (hins : env.inspect apkBytes = .ok m)
    (hnex : version_exists store m.package_name m.version_code = false)
    (hval : validate_package_name m.package_name.toList = .ok ())
    (htx : env.txOk = false) :
    (process_upload env maxSize store fn data ovn ovd).1 = .error .DatabaseErr
  ∧ hasApkFile (process_upload env maxSize store fn data ovn ovd).2
      m.package_name m.version_code = false
  ∧ (get_app store m.package_name = none →
      hasIcon (process_upload env maxSize store fn data ovn ovd).2 m.package_name = false)
  ∧ (get_app store m.package_name ≠ none →
      ∀ p, hasIcon store p = true →
        hasIcon (process_upload env maxSize store fn data ovn ovd).2 p = true)
  ∧ (process_upload env maxSize store fn data ovn ovd).2.apps = store.apps
  ∧ (process_upload env maxSize store fn data ovn ovd).2.versions = store.versions := by
  have hred : process_upload env maxSize store fn data ovn ovd =
      (.error .DatabaseErr,
        cleanup_on_failure
          (saveIconPhase
            { store with
                apkDirs := if store.apkDirs.contains m.package_name then store.apkDirs
                  else m.package_name :: store.apkDirs,
                apkFiles := ((m.package_name, m.version_code), apkBytes) ::
                  store.apkFiles.filter
                    (fun f => ¬ f.1 = (m.package_name, m.version_code)) } m).2
          m.package_name m.version_code (get_app store m.package_name).isNone) := by
    unfold process_upload
    rw [if_neg (by omega)]
    simp only [hmat, hins, hnex, Bool.false_eq_true, if_false, save_apk_spec hval, htx]
  obtain ⟨hf1, hf2, hf3, hf4⟩ := saveIconPhase_frame
    { store with
        apkDirs := if store.apkDirs.contains m.package_name then store.apkDirs
          else m.package_name :: store.apkDirs,
        apkFiles := ((m.package_name, m.version_code), apkBytes) ::
          store.apkFiles.filter
            (fun f => ¬ f.1 = (m.package_name, m.version_code)) } m
  obtain ⟨hc1, hc2, hc3, hc4⟩ := @cleanup_spec
    ((saveIconPhase
      { store with
          apkDirs := if store.apkDirs.contains m.package_name then store.apkDirs
            else m.package_name :: store.apkDirs,
          apkFiles := ((m.package_name, m.version_code), apkBytes) ::
            store.apkFiles.filter
              (fun f => ¬ f.1 = (m.package_name, m.version_code)) } m).2)
    m.package_name m.version_code ((get_app store m.package_name).isNone) hval
  rw [hred]
  refine ⟨rfl, ?_, ?_, ?_, ?_, ?_⟩
  · unfold hasApkFile
    rw [hc1]
    exact any_key_filter_ne _ _
  · intro h
    unfold hasIcon
    rw [h] at hc2 ⊢
    simp only [Option.isNone_none, if_true] at hc2 ⊢
    rw [hc2]
    exact any_key_filter_ne _ _
  · intro h p hp
    have hb : (get_app store m.package_name).isNone = false := by
      rcases hget : get_app store m.package_name with _ | a
      · exact absurd hget h
      · rfl
    unfold hasIcon
    rw [hb] at hc2 ⊢
    simp only [Bool.false_eq_true, if_false] at hc2
    rw [hc2]
    exact hf4 p hp
  · rw [hc3, hf2]
  · rw [hc4, hf3]

/-- Witness evaluating C2_cleanup_on_tx_failure both for a new package
(icon deleted) and for a pre-existing package with an earlier icon
(icon kept). -/
theorem C2_cleanup_on_tx_failure_witness :
    (process_upload envC2 10 storeE fnC dataPK none none).1 = .error .DatabaseErr
  ∧ hasApkFile (process_upload envC2 10 storeE fnC dataPK none none).2 "com.a" 1 = false
  ∧ hasIcon (process_upload envC2 10 storeE fnC dataPK none none).2 "com.a" = false
  ∧ hasIcon (process_upload envC2 10 storeC2b fnC dataPK none none).2 "com.a" = true := by
  obtain ⟨h1, h2, h3, h4, h5, h6⟩ := C2_cleanup_on_tx_failure envC2 10 storeE fnC dataPK
    none none mdC2 dataPK (by decide) (by decide) rfl (by decide) (by decide) rfl
  obtain ⟨g1, g2, g3, g4, g5, g6⟩ := C2_cleanup_on_tx_failure envC2 10 storeC2b fnC dataPK
    none none mdC2 dataPK (by decide) (by decide) rfl (by decide) (by decide) rfl
  exact ⟨h1, h2, h3 (by decide), g4 (by decide) "com.a" (by decide)⟩

/-! ## Claim C7: the badging parser and its fallbacks -/

/-- C7: the badging parser fails exactly when the line scan produced no
package name or no numeric versionCode, and then always with a
ParseError; on success it returns the scanned name and code, and the
fallbacks are as documented: a missing versionName becomes the decimal
string of versionCode, a missing sdkVersion becomes 21, a missing
application-label becomes the package name, while present values are
returned as scanned. -/
theorem C7_badging_fallbacks (lines : List (List Char)) :
    ((∃ r, parse_aapt2_output lines = .ok r) ↔
      (badgingScan lines).package_name ≠ none ∧ (badgingScan lines).version_code ≠ none)
  ∧ (∀ e, parse_aapt2_output lines = .error e → ∃ msg, e = .ParseError msg)
  ∧ (∀ pn vc, (badgingScan lines).package_name = some pn →
      (badgingScan lines).version_code = some vc →
      ∃ r, parse_aapt2_output lines = .ok r
        ∧ r.package_name = pn ∧ r.version_code = vc
        ∧ ((badgingScan lines).version_name = none → r.version_name = intChars vc)
        ∧ (∀ v, (badgingScan lines).version_name = some v → r.version_name = v)
        ∧ ((badgingScan lines).min_sdk = none → r.min_sdk = 21)
        ∧ (∀ k, (badgingScan lines).min_sdk = some k → r.min_sdk = k)
        ∧ ((badgingScan lines).app_name = none → r.app_name = pn)
        ∧ (∀ a, (badgingScan lines).app_name = some a → r.app_name = a)) := by
  unfold parse_aapt2_output
  rcases hpn : (badgingScan lines).package_name with _ | pn
  · simp only [hpn]
    refine ⟨?_, ?_, ?_⟩
    · constructor
      · rintro ⟨r, h⟩
        exact absurd h (by simp)
      · rintro ⟨h, -⟩
        exact absurd rfl h
    · intro e he
      refine ⟨"Missing package name", ?_⟩
      injection he with he
      exact he.symm
    · intro pn' vc' h1 h2
      exact absurd h1 (by simp)
  · rcases hvc : (badgingScan lines).version_code with _ | vc
    · simp only [hpn, hvc]
      refine ⟨?_, ?_, ?_⟩
      · constructor
        · rintro ⟨r, h⟩
          exact absurd h (by simp)
        · rintro ⟨-, h⟩
          exact absurd rfl h
      · intro e he
        refine ⟨"Missing version code", ?_⟩
        injection he with he
        exact he.symm
      · intro pn' vc' h1 h2
        exact absurd h2 (by simp)
    · simp only [hpn, hvc]
      refine ⟨?_, ?_, ?_⟩
      · constructor
        · intro _h
          exact ⟨by simp, by simp⟩
        · intro _h
          exact ⟨_, rfl⟩
      · intro e he
        exact absurd he (by simp)
      · intro pn' vc' h1 h2
        injection h1 with h1
        injection h2 with h2
        subst h1
        subst h2
        refine ⟨_, rfl, rfl, rfl, ?_, ?_, ?_, ?_, ?_, ?_⟩
        · intro h
          rw [h]
          rfl
        · intro v h
          rw [h]
          rfl
        · intro h
          rw [h]
          rfl
        · intro k h
          rw [h]
          rfl
        · intro h
          rw [h]
          rfl
        · intro a h
          rw [h]
          rfl

/-- Witness evaluating C7_badging_fallbacks on a minimal badging output with
only a name and a versionCode, checking all three fallbacks. -/
theorem C7_badging_fallbacks_witness :
    ∃ r, parse_aapt2_output [lineMin] = .ok r
      ∧ r.package_name = "com.test".toList ∧ r.version_code = 1
      ∧ r.version_name = ['1'] ∧ r.min_sdk = 21 ∧ r.app_name = "com.test".toList := by
  obtain ⟨r, hok, hpn, hvc, hvn, hvns, hsdk, hsdks, happ, happs⟩ :=
    (C7_badging_fallbacks [lineMin]).2.2 ("com.test".toList) 1 (by decide) (by decide)
  refine ⟨r, hok, hpn, hvc, ?_, hsdk (by decide), ?_⟩
  · exact (hvn (by decide)).trans (by decide)
  · exact happ (by decide)

end Lellostore
